import Mathlib

/-!
# Verification of the pdb session-orchestration core (`jons-mcp-pdb`)

A shallow embedding of the session/process orchestration layer of the
repository (`src/jons_mcp_pdb/pdb_client.py`, `constants.py`, `utils.py`,
`tools/breakpoints.py`) together with theorems settling the specification
claims about it.

Modelling conventions:
* Python strings are Lean `String`s (or `List Char` where character-level
  processing is embedded); machine text is ASCII in all patterns involved.
* Threads are embedded as explicit state-passing functions: the reader
  thread is a fold over the characters it reads (plus an explicit
  read-error event), the prompt synchronizer consumes the list of chunks
  that arrive on the output queue during its timeout window.
* Python `dict`s are association lists with insert-or-replace update,
  preserving insertion order, exactly like `dict` iteration order.
* Fallible operations return explicit result types; none of the embedded
  functions can raise (they are total Lean functions).
* Python regexes are embedded as concrete matching functions implementing
  leftmost search with greedy (backtracking) quantifier semantics for the
  specific patterns used by the code; `\d` and `\s` are modelled at ASCII
  granularity.
-/

namespace JonsMcpPdb

/-- `DebuggerState` from `constants.py`. -/
inductive DebuggerState where
  | idle
  | running
  | paused
  | finished
  | error
deriving DecidableEq, Repr

/-- The `.value` string of each `DebuggerState` member. -/
def DebuggerState.value : DebuggerState → String
  | .idle => "idle"
  | .running => "running"
  | .paused => "paused"
  | .finished => "finished"
  | .error => "error"

/-- `StackFrame` dataclass from `pdb_client.py`. -/
structure StackFrame where
  index : Nat
  file : String
  line : Nat
  function : String
  code : String
deriving DecidableEq, Repr

/-- `Breakpoint` dataclass from `pdb_client.py`. -/
structure Breakpoint where
  id : Nat
  file : String
  line : Nat
  function : Option String := none
  condition : Option String := none
  temporary : Bool := false
  enabled : Bool := true
  hit_count : Nat := 0
deriving DecidableEq, Repr

/-- A subprocess handle (`subprocess.Popen`). `exited` embeds
`process.poll() is not None`. -/
structure Proc where
  pid : Nat
  exited : Bool
deriving DecidableEq, Repr

/-- `DebugSession` dataclass from `pdb_client.py`. The output and command
queues are embedded as the lists of their pending elements, oldest first. -/
structure DebugSession where
  session_id : String
  process : Option Proc := none
  state : DebuggerState := .idle
  current_frame : Option StackFrame := none
  breakpoints : List (Nat × Breakpoint) := []
  target_type : String := "script"
  target : String := ""
  args : List String := []
  output_queue : List String := []
  command_queue : List String := []
  last_output : String := ""
  python_executable : String := "python3"
deriving DecidableEq, Repr

/-- `PdbClient` from `pdb_client.py`: the session registry.  The mutex is not
modelled (operations are embedded as atomic state transitions, which is what
the mutex provides); `python_exe` is the value `_find_python_executable`
returns (an environment lookup performed outside the registry logic) and
`pytest_args` comes from the loaded `Config`. -/
structure PdbClient where
  sessions : List (String × DebugSession) := []
  session_counter : Nat := 0
  python_exe : String := "python3"
  pytest_args : List String := []
deriving DecidableEq, Repr

/-! ## Association lists embedding Python `dict` -/

variable {α β : Type} [DecidableEq α]

/-- `d.get(k)` on a Python dict embedded as an association list. -/
def lookupA : List (α × β) → α → Option β
  | [], _ => none
  | (k, v) :: rest, key => if k = key then some v else lookupA rest key

/-- `d[k] = v` on a Python dict: replace in place if the key is present,
otherwise append (Python dicts preserve insertion order). -/
def updateA : List (α × β) → α → β → List (α × β)
  | [], key, v => [(key, v)]
  | (k, w) :: rest, key, v =>
    if k = key then (key, v) :: rest else (k, w) :: updateA rest key v

/-- `del d[k]` on a Python dict.  A dict holds each key at most once, so
removing every occurrence from the association list is the faithful
embedding (and coincides with removing the first on any list built by
`updateA`/`eraseA`). -/
def eraseA : List (α × β) → α → List (α × β)
  | [], _ => []
  | (k, w) :: rest, key =>
    if k = key then eraseA rest key else (k, w) :: eraseA rest key

theorem lookupA_updateA_self (l : List (α × β)) (k : α) (v : β) :
    lookupA (updateA l k v) k = some v := by
  induction l with
  | nil => simp [updateA, lookupA]
  | cons hd tl ih =>
    obtain ⟨k', v'⟩ := hd
    by_cases h : k' = k <;> simp [updateA, lookupA, h, ih]

theorem lookupA_updateA_ne (l : List (α × β)) (k k' : α) (v : β) (h : k ≠ k') :
    lookupA (updateA l k v) k' = lookupA l k' := by
  induction l with
  | nil => simp [updateA, lookupA, h]
  | cons hd tl ih =>
    obtain ⟨ka, va⟩ := hd
    by_cases hk : ka = k
    · subst hk
      simp [updateA, lookupA, h]
    · simp [updateA, lookupA, hk, ih]

theorem lookupA_eraseA_self (l : List (α × β)) (k : α) :
    lookupA (eraseA l k) k = none := by
  induction l with
  | nil => simp [eraseA, lookupA]
  | cons hd tl ih =>
    obtain ⟨ka, va⟩ := hd
    by_cases hk : ka = k
    · simp [eraseA, lookupA, hk, ih]
    · simp [eraseA, lookupA, hk, ih]

theorem lookupA_mem (l : List (α × β)) (k : α) (v : β)
    (h : lookupA l k = some v) : (k, v) ∈ l := by
  induction l with
  | nil => simp [lookupA] at h
  | cons hd tl ih =>
    obtain ⟨ka, va⟩ := hd
    by_cases hk : ka = k
    · subst hk
      simp [lookupA] at h
      simp [h]
    · simp [lookupA, hk] at h
      exact List.mem_cons_of_mem _ (ih h)

/-! ## Character-level helpers

ASCII embeddings of Python's `\s`, `\d`, `str.strip` and `int()` on digit
strings. -/

/-- Python regex `\s` at ASCII granularity: space, tab, newline, carriage
return, vertical tab, form feed. -/
def isPyWhitespace (c : Char) : Bool :=
  c = ' ' || c = '\t' || c = '\n' || c = '\r' || c = Char.ofNat 11 || c = Char.ofNat 12

/-- Split a maximal run of `\d` digits off the front (the greedy `\d+`). -/
def takeDigits : List Char → List Char × List Char
  | [] => ([], [])
  | c :: rest =>
    if c.isDigit then
      let (d, r) := takeDigits rest
      (c :: d, r)
    else ([], c :: rest)

/-- `int()` on a decimal digit string. -/
def digitsToNat (ds : List Char) : Nat :=
  ds.foldl (fun a c => 10 * a + (c.toNat - 48)) 0

/-- Python `str.strip()`: drop leading and trailing whitespace. -/
def stripChars (cs : List Char) : List Char :=
  ((cs.dropWhile isPyWhitespace).reverse.dropWhile isPyWhitespace).reverse

/-! ## The prompt pattern

`constants.py`: `PDB_PROMPT = "(Pdb) "` and
`PDB_PROMPT_PATTERN = re.compile(r"\(Pdb\)\s*$", re.MULTILINE)`. -/

/-- The literal prompt string `"(Pdb) "`. -/
def pdbPromptChars : List Char := "(Pdb) ".data

/-- The literal `"(Pdb)"` head of the prompt pattern. -/
def pdbMarkChars : List Char := "(Pdb)".data

/-- After an occurrence of `"(Pdb)"`, the tail `\s*$` (with `re.MULTILINE`)
succeeds iff walking forward over whitespace we reach a newline or the end of
the string before any non-whitespace character: `$` matches at end of string
or just before a `\n`, and `\s*` (which itself may consume newlines) can stop
at any point of the whitespace run. -/
def promptTailMatch : List Char → Bool
  | [] => true
  | c :: rest =>
    if c = '\n' then true
    else if isPyWhitespace c then promptTailMatch rest
    else false

/-- `PDB_PROMPT_PATTERN.search`: is there an occurrence of `"(Pdb)"` whose
following whitespace run reaches end-of-string or a newline? -/
def pdbPromptFound : List Char → Bool
  | [] => false
  | c :: rest =>
    (pdbMarkChars.isPrefixOf (c :: rest) && promptTailMatch ((c :: rest).drop 5))
      || pdbPromptFound rest

/-! ## The location / stack-frame / breakpoint patterns

`constants.py`:
* `CURRENT_LOCATION_PATTERN = re.compile(r"> (.+)\((\d+)\)(.+)\(\)")`, used
  with `.search`;
* `STACK_FRAME_PATTERN = re.compile(r"^\s*(.+)\((\d+)\)(.+)\(\)$", re.MULTILINE)`,
  used with `.match` on single lines (which contain no newline);
* `BREAKPOINT_SET_PATTERN = re.compile(r"Breakpoint (\d+) at (.+):(\d+)")`,
  used with `.search`.

The matchers below implement leftmost search and greedy quantifiers with
backtracking for exactly these patterns.  `.` never matches a newline, so a
match always stays within one line; `\d+` followed by a literal that is not a
digit never profits from backtracking, so it is always the maximal digit
run. -/

/-- Given the text after a candidate `(.+)` group, match `\((\d+)\)` and then
hand the remainder to `k` (the matcher for the rest of the pattern). -/
def parenDigits (rest : List Char) (k : List Char → Option (List Char)) :
    Option (List Char × List Char) :=
  match rest with
  | '(' :: r2 =>
    let (d, r3) := takeDigits r2
    if d.isEmpty then none
    else
      match r3 with
      | ')' :: r4 =>
        match k r4 with
        | some g => some (d, g)
        | none => none
      | _ => none
  | _ => none

/-- Greedy `(.+)\(\)` with nothing after it (`CURRENT_LOCATION_PATTERN`):
the group is the longest nonempty prefix followed immediately by `"()"`,
i.e. everything up to the last `"()"` occurrence at index ≥ 1.  The fuel
argument is the candidate index of the `'('`. -/
def lastParenPairAux (u : List Char) : Nat → Option (List Char)
  | 0 => none
  | k + 1 =>
    if u[k + 1]? = some '(' ∧ u[k + 2]? = some ')' then some (u.take (k + 1))
    else lastParenPairAux u k

/-- Longest nonempty group `g` with `g ++ "()" ` a prefix of `u`. -/
def lastParenPair (u : List Char) : Option (List Char) :=
  lastParenPairAux u u.length

/-- Try `(.+)` group-1 lengths from `a` down to `1` (greedy order) on line
tail `t`, matching `\((\d+)\)` and then `tail3` for the rest of the pattern
after group 2. -/
def tryG1 (t : List Char) (tail3 : List Char → Option (List Char)) :
    Nat → Option (List Char × List Char × List Char)
  | 0 => none
  | a + 1 =>
    match parenDigits (t.drop (a + 1)) tail3 with
    | some (d, g3) =>
      if (t.take (a + 1)).any (· = '\n') then tryG1 t tail3 a
      else some (t.take (a + 1), d, g3)
    | none => tryG1 t tail3 a

/-- Match `(.+)\((\d+)\)(.+)\(\)` against the line tail `t` (text after
`"> "`, already truncated at the next newline): groups 1–3 on success. -/
def locMatchLine (t : List Char) : Option (List Char × List Char × List Char) :=
  tryG1 t lastParenPair t.length

/-- `CURRENT_LOCATION_PATTERN.search`: scan for the leftmost `"> "` from
which the rest of the pattern matches. -/
def locSearch : List Char → Option (List Char × List Char × List Char)
  | [] => none
  | c :: rest =>
    if c = '>' then
      match rest with
      | ' ' :: r2 =>
        match locMatchLine (r2.takeWhile (· != '\n')) with
        | some g => some g
        | none => locSearch rest
      | _ => locSearch rest
    else locSearch rest

/-- For `STACK_FRAME_PATTERN`, the part after group 2 is `(.+)\(\)$`: the
whole remainder must be `g3 ++ "()"` with `g3` nonempty (the `$` pins the
final `"()"` to the end of the line). -/
def tailParenEnd (u : List Char) : Option (List Char) :=
  if u.length ≥ 3 ∧ u.drop (u.length - 2) = ['(', ')'] then
    some (u.take (u.length - 2))
  else none

/-- Match `(.+)\((\d+)\)(.+)\(\)$` against `t` (a line with its leading
`\s*` already removed). -/
def stackAfterWs (t : List Char) : Option (List Char × List Char × List Char) :=
  tryG1 t tailParenEnd t.length

/-- Try the `\s*` widths from `w` down to `0` (greedy order). -/
def stackTryWs (line : List Char) : Nat → Option (List Char × List Char × List Char)
  | 0 => stackAfterWs line
  | w + 1 =>
    match stackAfterWs (line.drop (w + 1)) with
    | some g => some g
    | none => stackTryWs line w

/-- `STACK_FRAME_PATTERN.match(line)` for a line without newlines: `^`
anchors at the start, `\s*` is greedy over the leading whitespace run but
may backtrack (`.` also matches a space). -/
def stackMatchLine (line : List Char) : Option (List Char × List Char × List Char) :=
  stackTryWs line (line.takeWhile isPyWhitespace).length

/-- The literal `"Breakpoint "` head of `BREAKPOINT_SET_PATTERN`. -/
def bpHeadChars : List Char := "Breakpoint ".data

/-- The literal `" at "` of `BREAKPOINT_SET_PATTERN`. -/
def bpAtChars : List Char := " at ".data

/-- Greedy `(.+):(\d+)` with nothing after it: group 2 is the longest
nonempty prefix of the line tail followed by `':'` and a digit; group 3 is
the maximal digit run after that colon.  The fuel argument is the candidate
index of the `':'`. -/
def fileLineSplitAux (t : List Char) : Nat → Option (List Char × List Char)
  | 0 => none
  | k + 1 =>
    if t[k + 1]? = some ':' ∧ (t[k + 2]?.elim false Char.isDigit) then
      some (t.take (k + 1), (takeDigits (t.drop (k + 2))).1)
    else fileLineSplitAux t k

/-- Split `t` at the last `':'` that is followed by a digit and preceded by
at least one character. -/
def fileLineSplit (t : List Char) : Option (List Char × List Char) :=
  fileLineSplitAux t t.length

/-- Attempt `BREAKPOINT_SET_PATTERN` anchored at the head of `s`: groups
(id digits, file, line digits) on success. -/
def bpMatchHere (s : List Char) : Option (List Char × List Char × List Char) :=
  if bpHeadChars.isPrefixOf s then
    let (d, r2) := takeDigits (s.drop 11)
    if d.isEmpty then none
    else if bpAtChars.isPrefixOf r2 then
      match fileLineSplit ((r2.drop 4).takeWhile (· != '\n')) with
      | some (f, ln) => some (d, f, ln)
      | none => none
    else none
  else none

/-- `BREAKPOINT_SET_PATTERN.search`: leftmost position where the pattern
matches. -/
def bpSearch : List Char → Option (List Char × List Char × List Char)
  | [] => none
  | c :: rest =>
    match bpMatchHere (c :: rest) with
    | some g => some g
    | none => bpSearch rest

/-! ## Response parsers (`pdb_client.py` / `utils.py`) -/

/-- `PdbClient._parse_location` (and the identical `utils.parse_location`):
build a `StackFrame` with index 0 from the leftmost current-location marker,
`None` if the pattern finds no match. -/
def parse_location_frame (output : String) : Option StackFrame :=
  match locSearch output.data with
  | some (g1, d, g3) =>
    some { index := 0, file := String.mk g1, line := digitsToNat d,
           function := String.mk (stripChars g3), code := "" }
  | none => none

/-- Python `output.split("\n")`: split at every newline, keeping empty
parts (`n` newlines yield `n + 1` parts). -/
def splitLines : List Char → List (List Char)
  | [] => [[]]
  | c :: rest =>
    if c = '\n' then [] :: splitLines rest
    else
      match splitLines rest with
      | h :: t => (c :: h) :: t
      | [] => [[c]]

/-- The body of the `for i, line in enumerate(lines)` loop of
`parse_stack_frames`: one `StackFrame` per line matched by
`STACK_FRAME_PATTERN`, carrying the line's position `i` as its index. -/
def parseFramesAux : Nat → List (List Char) → List StackFrame
  | _, [] => []
  | i, line :: rest =>
    match stackMatchLine line with
    | some (g1, d, g3) =>
      { index := i, file := String.mk (stripChars g1), line := digitsToNat d,
        function := String.mk (stripChars g3), code := "" } :: parseFramesAux (i + 1) rest
    | none => parseFramesAux (i + 1) rest

/-- `PdbClient._parse_stack_frames` (and the identical
`utils.parse_stack_frames`): split on newlines and parse each line. -/
def parse_stack_frames (output : String) : List StackFrame :=
  parseFramesAux 0 (splitLines output.data)

/-! ## The Output Reader (`PdbClient._reader_thread`) -/

/-- One iteration of the reader loop on a character read from the
subprocess: append to the buffer; push the buffer (and clear it) if the
character is a newline, or else if the buffer now ends with the prompt
string. -/
def readerStep (buffer : List Char) (c : Char) : List (List Char) × List Char :=
  let b := buffer ++ [c]
  if c = '\n' then ([b], [])
  else if pdbPromptChars.isSuffixOf b then ([b], [])
  else ([], b)

/-- The chunk-pushing skeleton of the reader loop over a sequence of read
characters: returns the pushed chunks in order and the final (unflushed)
buffer. -/
def readerProcess : List Char → List Char → List (List Char) × List Char
  | [], buffer => ([], buffer)
  | c :: rest, buffer =>
    let s := readerStep buffer c
    let r := readerProcess rest s.2
    (s.1 ++ r.1, r.2)

/-- One event observed by the reader thread: a character read from the
subprocess stdout, or the read raising an exception. -/
inductive ReadEvent where
  | ch (c : Char)
  | readFail
deriving DecidableEq, Repr

/-- `"--Return--"`. -/
def returnSentinel : List Char := "--Return--".data

/-- `"The program finished"`. -/
def finishedSentinel : List Char := "The program finished".data

/-- Python's `needle in hay` on strings: does `needle` occur contiguously
in `hay`? -/
def containsSeq (needle : List Char) : List Char → Bool
  | [] => needle.isEmpty
  | c :: rest => needle.isPrefixOf (c :: rest) || containsSeq needle rest

/-- The per-iteration sentinel scan: if `last_output` contains `--Return--`
or `The program finished`, set the state to FINISHED. -/
def sentinelCheck (lastOut : List Char) (st : DebuggerState) : DebuggerState :=
  if containsSeq returnSentinel lastOut || containsSeq finishedSentinel lastOut then
    .finished
  else st

/-- The full reader thread (`_reader_thread`): consume events until the
list is exhausted (the subprocess exited and the loop condition fails — the
remaining buffer is then flushed inside the `try`) or a read raises (the
`except` clause sets the state to ERROR; note control leaves the `try`
before the trailing flush, so the partial buffer is NOT pushed).  Returns
the pushed chunks, the final `last_output` and the final session state. -/
def readerRun : List ReadEvent → List Char → List Char → DebuggerState →
    List (List Char) × List Char × DebuggerState
  | [], buffer, lastOut, st =>
    if buffer.isEmpty then ([], lastOut, st)
    else ([buffer], lastOut ++ buffer, st)
  | .readFail :: _, _, lastOut, _ => ([], lastOut, .error)
  | .ch c :: rest, buffer, lastOut, st =>
    let b := buffer ++ [c]
    if c = '\n' then
      let st2 := sentinelCheck (lastOut ++ b) st
      let r := readerRun rest [] (lastOut ++ b) st2
      (b :: r.1, r.2)
    else if pdbPromptChars.isSuffixOf b then
      let st2 := sentinelCheck (lastOut ++ b) .paused
      let r := readerRun rest [] (lastOut ++ b) st2
      (b :: r.1, r.2)
    else
      let st2 := sentinelCheck lastOut st
      readerRun rest b lastOut st2

/-! ## The Prompt Synchronizer (`send_command` / `_read_until_prompt`) -/

/-- `PdbClient._read_until_prompt`: pop chunks from the output queue,
appending to the accumulator, until the prompt pattern matches the
accumulated output or the timeout elapses.  `arrivals` is the list of
chunks that become available within the timeout window; exhausting it is
the timeout.  Returns the accumulated output and the chunks left
unconsumed. -/
def readUntilPromptAux : List String → String → String × List String
  | [], acc => (acc, [])
  | c :: rest, acc =>
    let acc2 := acc ++ c
    if pdbPromptFound acc2.data then (acc2, rest)
    else readUntilPromptAux rest acc2

/-- `_read_until_prompt` starting from an empty accumulator. -/
def read_until_prompt (arrivals : List String) : String × List String :=
  readUntilPromptAux arrivals ""

/-- `session.process and session.process.poll() is None`. -/
def processAlive (s : DebugSession) : Bool :=
  match s.process with
  | some p => !p.exited
  | none => false

/-- The result dict of `PdbClient.send_command`: either `{"error": ...}` or
`{"output": ..., "state": ...}`. -/
inductive CmdResult where
  | error (msg : String)
  | ok (output : String) (state : String)
deriving DecidableEq, Repr

/-- `PdbClient.send_command`: resolve the session; error out if there is no
live subprocess; otherwise drain the output queue, enqueue the command,
read until the prompt (or timeout), update `current_frame` from the output
and return the output together with the state's value string.  `arrivals`
is the list of chunks the reader pushes during the read window. -/
def send_command (client : PdbClient) (session_id command : String)
    (arrivals : List String) : CmdResult × PdbClient :=
  match lookupA client.sessions session_id with
  | none => (.error "Session not found", client)
  | some session =>
    if processAlive session then
      let drained := { session with output_queue := [] }
      let enqueued := { drained with command_queue := drained.command_queue ++ [command] }
      let rd := read_until_prompt arrivals
      let afterRead := { enqueued with output_queue := rd.2 }
      let final :=
        match parse_location_frame rd.1 with
        | some fr => { afterRead with current_frame := some fr }
        | none => afterRead
      (.ok rd.1 session.state.value,
        { client with sessions := updateA client.sessions session_id final })
    else
      (.error "No active process", client)

/-! ## Session lifecycle (`create_session`, `close_session`, `start_debug`) -/

/-- `PdbClient.create_session`: bump the counter, derive the id, insert a
fresh idle session. -/
def create_session (client : PdbClient) : String × PdbClient :=
  let counter := client.session_counter + 1
  let sid := "session_" ++ Nat.repr counter
  let session : DebugSession := { session_id := sid, python_executable := client.python_exe }
  (sid, { client with
            session_counter := counter,
            sessions := updateA client.sessions sid session })

/-- A sequence of `create_session` calls on one client, returning the ids
in issuance order. -/
def createRun : PdbClient → Nat → List String × PdbClient
  | client, 0 => ([], client)
  | client, k + 1 =>
    let c1 := create_session client
    let r := createRun c1.2 k
    (c1.1 :: r.1, r.2)

/-- Outcome of the terminate sequence in `close_session`: the graceful
`terminate`/`wait` either succeeds in time, raises `TimeoutExpired` (upon
which the process is killed), or raises some other exception (swallowed by
the bare `except`).  All three are absorbed. -/
inductive TermOutcome where
  | exitedInTime
  | timeoutThenKill
  | raised
deriving DecidableEq, Repr

/-- `PdbClient.close_session`: look the session up; if present, run the
best-effort terminate sequence (whose outcome is swallowed), delete the
session from the map, and return `True`; return `False` for an unknown
id. -/
def close_session (client : PdbClient) (session_id : String)
    (_tout : TermOutcome) : Bool × PdbClient :=
  match lookupA client.sessions session_id with
  | none => (false, client)
  | some _ => (true, { client with sessions := eraseA client.sessions session_id })

/-- Result of spawning the subprocess (`subprocess.Popen` succeeding or
raising). -/
inductive SpawnOutcome where
  | ok (p : Proc)
  | raised (msg : String)

/-- Result dict of `PdbClient.start_debug`. -/
inductive StartResult where
  | started (session_id : String)
  | error (msg : String)
deriving DecidableEq, Repr

/-- The command list built by `start_debug` for the two modes. -/
def buildCmd (pythonExe target mode : String) (args : List String)
    (pytestArgs : List String) : List String :=
  if mode = "pytest" then
    [pythonExe, "-m", "pytest", "--trace", "-s", "-v"] ++ pytestArgs ++ [target] ++ args
  else
    [pythonExe, "-m", "pdb", target] ++ args

/-- `PdbClient.start_debug`: resolve the session, refuse if a subprocess is
already attached, spawn the subprocess (`spawn` is the environment's
response to `Popen` on the built command), attach it, set the state to
PAUSED, start the worker threads, and wait for the initial prompt
(`prompt_arrives` abstracts `_wait_for_prompt` within `STARTUP_TIMEOUT`);
on timeout return an error carrying up to 200 characters of accumulated
output — with the process still attached. -/
def start_debug (client : PdbClient) (session_id target mode : String)
    (args : Option (List String)) (spawn : List String → SpawnOutcome)
    (prompt_arrives : Bool) : StartResult × PdbClient :=
  match lookupA client.sessions session_id with
  | none => (.error "Session not found", client)
  | some session =>
    if session.process.isSome then
      (.error "Session already has an active process", client)
    else
      let cmd := buildCmd session.python_executable target mode (args.getD []) client.pytest_args
      match spawn cmd with
      | .raised msg => (.error msg, client)
      | .ok p =>
        let s1 := { session with
                      process := some p, target := target, target_type := mode,
                      args := args.getD [], state := .paused }
        let client1 := { client with sessions := updateA client.sessions session_id s1 }
        if prompt_arrives then (.started session_id, client1)
        else
          let base := "Failed to get initial prompt"
          let msg := if s1.last_output ≠ "" then
              base ++ ". Output: " ++ s1.last_output.take 200
            else base
          (.error msg, client1)

/-! ## Breakpoint tools (`tools/breakpoints.py`) -/

/-- Python truthiness of the optional `line` argument (`not line` is true
for `None` and for `0`). -/
def pyFalsyNat (o : Option Nat) : Bool :=
  match o with
  | none => true
  | some n => n = 0

/-- Python truthiness of the optional `function` argument (`not function`
is true for `None` and for the empty string). -/
def pyFalsyStr (o : Option String) : Bool :=
  match o with
  | none => true
  | some s => s = ""

/-- The break command string built by `set_breakpoint`. -/
def buildBreakCmd (file : String) (line : Option Nat) (func : Option String)
    (condition : Option String) (temporary : Bool) : String :=
  let base := if temporary then "tbreak" else "break"
  let withLoc :=
    if !pyFalsyStr func then base ++ " " ++ func.getD ""
    else base ++ " " ++ file ++ ":" ++ Nat.repr (line.getD 0)
  match condition with
  | some cond => withLoc ++ ", " ++ cond
  | none => withLoc

/-- Result of `set_breakpoint`: `{"error": ...}` or
`{"breakpoint_id": ..., "location": {"file": ..., "line": ...}}`. -/
inductive BpSetResult where
  | error (msg : String)
  | ok (breakpoint_id : Nat) (file : String) (line : Nat)
deriving DecidableEq, Repr

/-- `tools/breakpoints.py: set_breakpoint`: validate the arguments, send
the break command, parse the debuggee's confirmation with
`BREAKPOINT_SET_PATTERN`, record the confirmed breakpoint in the session's
table and return the confirmed id and resolved location; an unparseable
confirmation yields `{"error": "Failed to set breakpoint"}`. -/
def set_breakpoint (client : PdbClient) (session_id file : String)
    (line : Option Nat) (func : Option String) (condition : Option String)
    (temporary : Bool) (arrivals : List String) : BpSetResult × PdbClient :=
  if pyFalsyNat line && pyFalsyStr func then
    (.error "Either line or function must be specified", client)
  else
    match send_command client session_id
        (buildBreakCmd file line func condition temporary) arrivals with
    | (.error msg, c1) => (.error msg, c1)
    | (.ok output _st, c1) =>
      match bpSearch output.data with
      | some (d, f, ln) =>
        let bpId := digitsToNat d
        let resolvedFile := String.mk f
        let resolvedLine := digitsToNat ln
        let c2 :=
          match lookupA c1.sessions session_id with
          | some session =>
            let bp : Breakpoint :=
              { id := bpId, file := resolvedFile, line := resolvedLine,
                function := func, condition := condition, temporary := temporary }
            let s2 := { session with breakpoints := updateA session.breakpoints bpId bp }
            { c1 with sessions := updateA c1.sessions session_id s2 }
          | none => c1
        (.ok bpId resolvedFile resolvedLine, c2)
      | none => (.error "Failed to set breakpoint", c1)

/-- One record of the `breakpoints` array returned by `list_breakpoints`. -/
structure BpRecord where
  id : Nat
  file : String
  line : Nat
  function : Option String
  condition : Option String
  enabled : Bool
  hit_count : Nat
deriving DecidableEq, Repr

/-- Result of `list_breakpoints`: `{"error": ...}` or the paginated records
with the pagination metadata. -/
inductive BpListResult where
  | error (msg : String)
  | ok (breakpoints : List BpRecord) (offset : Nat) (limit : Option Nat)
      (total : Nat) (returned : Nat)
deriving DecidableEq, Repr

/-- `tools/breakpoints.py: list_breakpoints`: send `break` to the debuggee,
then build one record per entry of the session's breakpoint table, sort by
id and paginate with `[offset : offset + limit]` (all remaining when
`limit` is `None`). -/
def list_breakpoints (client : PdbClient) (session_id : String)
    (limit : Option Nat) (offset : Nat) (arrivals : List String) :
    BpListResult × PdbClient :=
  match send_command client session_id "break" arrivals with
  | (.error msg, c1) => (.error msg, c1)
  | (.ok _output _st, c1) =>
    match lookupA c1.sessions session_id with
    | none => (.error "Session not found", c1)
    | some session =>
      let allB := session.breakpoints.map (fun kv =>
        BpRecord.mk kv.2.id kv.2.file kv.2.line kv.2.function kv.2.condition
          kv.2.enabled kv.2.hit_count)
      let sorted := List.insertionSort (fun a b => a.id ≤ b.id) allB
      let total := sorted.length
      let paginated :=
        match limit with
        | some l => (sorted.drop offset).take l
        | none => sorted.drop offset
      (.ok paginated offset limit total paginated.length, c1)

/-! ## Decimal rendering: `Nat.repr` is injective

`create_session` builds ids with an f-string, i.e. `"session_" ++
Nat.repr counter`.  To prove distinctness of ids we prove that decimal
rendering is injective, by exhibiting the evaluation map as a left
inverse. -/

/-- The decimal digit list of `n`, most significant first (the spec of
`Nat.toDigits 10`). -/
def decDigits : Nat → List Char
  | n =>
    if h : n < 10 then [Nat.digitChar n]
    else
      have : n / 10 < n := Nat.div_lt_self (by omega) (by omega)
      decDigits (n / 10) ++ [Nat.digitChar (n % 10)]

theorem decDigits_lt (n : Nat) (h : n < 10) : decDigits n = [Nat.digitChar n] := by
  rw [decDigits]
  simp [h]

theorem decDigits_ge (n : Nat) (h : ¬ n < 10) :
    decDigits n = decDigits (n / 10) ++ [Nat.digitChar (n % 10)] := by
  conv_lhs => rw [decDigits]
  simp [h]

theorem toDigitsCore_eq_decDigits :
    ∀ (fuel n : Nat) (acc : List Char), n < fuel →
      Nat.toDigitsCore 10 fuel n acc = decDigits n ++ acc := by
  intro fuel
  induction fuel with
  | zero => intro n acc h; omega
  | succ f ih =>
    intro n acc h
    unfold Nat.toDigitsCore
    by_cases hd : n / 10 = 0
    · have hn : n < 10 := by omega
      simp [hd, decDigits_lt n hn, Nat.mod_eq_of_lt hn]
    · have hn : ¬ n < 10 := by
        intro hlt
        exact hd (Nat.div_eq_of_lt hlt)
      have hlt : n / 10 < f := by
        have h1 : n / 10 < n := Nat.div_lt_self (by omega) (by omega)
        omega
      simp only [hd, if_false]
      rw [ih (n / 10) _ hlt, decDigits_ge n hn, List.append_assoc]
      rfl

theorem repr_data_eq_decDigits (n : Nat) : (Nat.repr n).data = decDigits n := by
  show (Nat.toDigits 10 n).asString.data = decDigits n
  unfold Nat.toDigits
  rw [toDigitsCore_eq_decDigits (n + 1) n [] (Nat.lt_succ_self n)]
  simp [List.asString]

/-- Evaluate a decimal digit string back to a number. -/
def decValue (ds : List Char) : Nat :=
  ds.foldl (fun a c => 10 * a + (c.toNat - 48)) 0

theorem digitChar_toNat (d : Nat) (h : d < 10) : (Nat.digitChar d).toNat = 48 + d := by
  interval_cases d <;> rfl

theorem decValue_append_digit (ds : List Char) (c : Char) :
    decValue (ds ++ [c]) = 10 * decValue ds + (c.toNat - 48) := by
  simp [decValue, List.foldl_append]

theorem decValue_decDigits (n : Nat) : decValue (decDigits n) = n := by
  induction n using Nat.strong_induction_on with
  | _ n ih =>
    by_cases h : n < 10
    · rw [decDigits_lt n h]
      simp [decValue, digitChar_toNat n h]
    · rw [decDigits_ge n h, decValue_append_digit,
        ih (n / 10) (Nat.div_lt_self (by omega) (by omega)),
        digitChar_toNat (n % 10) (Nat.mod_lt n (by omega))]
      omega

theorem natRepr_injective : Function.Injective Nat.repr := by
  intro m n h
  have hd : decDigits m = decDigits n := by
    rw [← repr_data_eq_decDigits, ← repr_data_eq_decDigits, h]
  calc m = decValue (decDigits m) := (decValue_decDigits m).symm
    _ = decValue (decDigits n) := by rw [hd]
    _ = n := decValue_decDigits n

theorem sessionId_injective (m n : Nat)
    (h : "session_" ++ Nat.repr m = "session_" ++ Nat.repr n) : m = n := by
  apply natRepr_injective
  have hdata : ("session_" ++ Nat.repr m).data = ("session_" ++ Nat.repr n).data := by
    rw [h]
  simp only [String.data_append] at hdata
  have : (Nat.repr m).data = (Nat.repr n).data :=
    List.append_cancel_left hdata
  cases hm : Nat.repr m
  cases hn : Nat.repr n
  simp_all

/-! ## Claim C2: `send_command` without a live subprocess -/

/-- C2: for every session in the registry whose subprocess handle is absent
or whose subprocess has already exited, `send_command` returns the explicit
`"No active process"` error and returns the client completely unchanged: no
command is enqueued, the output queue is not drained, and the session map is
untouched.  (`send_command` is a total function of the embedding, so it
cannot raise.) -/
theorem send_command_no_active_process (client : PdbClient) (sid cmd : String)
    (arrivals : List String) (session : DebugSession)
    (hs : lookupA client.sessions sid = some session)
    (hdead : processAlive session = false) :
    send_command client sid cmd arrivals = (.error "No active process", client) := by
  simp [send_command, hs, hdead]

/-- A registry holding one session with no subprocess attached. -/
def clientNoProc : PdbClient :=
  { sessions := [("session_1", { session_id := "session_1" })], session_counter := 1 }

/-- Witness for C2 at a concrete client. -/
theorem send_command_no_active_process_witness :
    send_command clientNoProc "session_1" "next" ["chunk\n"] =
      (.error "No active process", clientNoProc) :=
  send_command_no_active_process clientNoProc "session_1" "next" ["chunk\n"]
    { session_id := "session_1" } (by decide) (by decide)

/-! ## Claim C5: `close_session` idempotence -/

/-- C5: for a session id present in the registry, the first `close_session`
returns `true` and removes the session from the map whatever the outcome of
terminating its subprocess; a second call on the same id returns `false`
and changes nothing.  (Both calls are total functions of the embedding, so
neither can throw; the terminate sequence's exceptions are swallowed by
construction of `TermOutcome`.) -/
theorem close_session_idempotent (client : PdbClient) (sid : String)
    (t1 t2 : TermOutcome) (h : (lookupA client.sessions sid).isSome = true) :
    (close_session client sid t1).1 = true
    ∧ lookupA (close_session client sid t1).2.sessions sid = none
    ∧ close_session (close_session client sid t1).2 sid t2 =
        (false, (close_session client sid t1).2) := by
  obtain ⟨s, hs⟩ := Option.isSome_iff_exists.mp h
  refine ⟨by simp [close_session, hs], ?_, ?_⟩
  · simp [close_session, hs, lookupA_eraseA_self]
  · simp [close_session, hs, lookupA_eraseA_self]

/-- A registry holding one session with a live subprocess, used by several
witnesses. -/
def clientLive : PdbClient :=
  { sessions := [("session_1",
      { session_id := "session_1", process := some ⟨41, false⟩, state := .paused })],
    session_counter := 1 }

/-- Witness for C5 at a concrete client, with a terminate sequence that has
to escalate to kill. -/
theorem close_session_idempotent_witness :
    (close_session clientLive "session_1" .timeoutThenKill).1 = true
    ∧ lookupA (close_session clientLive "session_1" .timeoutThenKill).2.sessions
        "session_1" = none
    ∧ close_session (close_session clientLive "session_1" .timeoutThenKill).2
        "session_1" .exitedInTime =
        (false, (close_session clientLive "session_1" .timeoutThenKill).2) :=
  close_session_idempotent clientLive "session_1" .timeoutThenKill .exitedInTime
    (by decide)

/-! ## Claim C10: a startup timeout leaves the subprocess attached -/

/-- C10: if `start_debug` spawns the subprocess but `_wait_for_prompt`
times out, the call reports a `"Failed to get initial prompt"` error while
leaving the session with the subprocess attached and state PAUSED; every
subsequent `start_debug` call on the same session therefore returns
`"Session already has an active process"` (and leaves the client unchanged,
so this holds for all later calls as well). -/
theorem start_debug_startup_timeout_stale (client : PdbClient)
    (sid target mode : String) (args : Option (List String))
    (spawn : List String → SpawnOutcome) (p : Proc) (session : DebugSession)
    (hs : lookupA client.sessions sid = some session)
    (hnone : session.process = none)
    (hspawn : spawn (buildCmd session.python_executable target mode (args.getD [])
        client.pytest_args) = .ok p) :
    ((start_debug client sid target mode args spawn false).1 =
        .error (if session.last_output ≠ "" then
            "Failed to get initial prompt. Output: " ++ session.last_output.take 200
          else "Failed to get initial prompt"))
    ∧ (∃ s1, lookupA (start_debug client sid target mode args spawn false).2.sessions sid
          = some s1 ∧ s1.process = some p ∧ s1.state = .paused)
    ∧ ∀ target2 mode2 args2 spawn2 pa2,
        start_debug (start_debug client sid target mode args spawn false).2
            sid target2 mode2 args2 spawn2 pa2 =
          (.error "Session already has an active process",
            (start_debug client sid target mode args spawn false).2) := by
  have hform : start_debug client sid target mode args spawn false =
      (.error (if session.last_output ≠ "" then
            "Failed to get initial prompt. Output: " ++ session.last_output.take 200
          else "Failed to get initial prompt"),
        { client with sessions := updateA client.sessions sid ({ session with
            process := some p, target := target, target_type := mode,
            args := args.getD [], state := .paused }) }) := by
    simp only [start_debug, hs, hnone, Option.isSome_none, Bool.false_eq_true,
      if_false, hspawn]
    split <;> simp_all
  refine ⟨by rw [hform], ⟨_, by rw [hform]; exact lookupA_updateA_self .., rfl, rfl⟩, ?_⟩
  intro target2 mode2 args2 spawn2 pa2
  rw [hform]
  simp [start_debug, lookupA_updateA_self]

/-- A registry holding one idle session with no subprocess. -/
def clientIdle : PdbClient :=
  { sessions := [("session_1", { session_id := "session_1" })], session_counter := 1 }

/-- Witness for C10 at a concrete client and spawn environment. -/
theorem start_debug_startup_timeout_stale_witness :
    ((start_debug clientIdle "session_1" "t.py" "script" none
        (fun _ => .ok ⟨7, false⟩) false).1 = .error "Failed to get initial prompt")
    ∧ (∃ s1, lookupA (start_debug clientIdle "session_1" "t.py" "script" none
          (fun _ => .ok ⟨7, false⟩) false).2.sessions "session_1" = some s1
        ∧ s1.process = some ⟨7, false⟩ ∧ s1.state = .paused)
    ∧ start_debug (start_debug clientIdle "session_1" "t.py" "script" none
          (fun _ => .ok ⟨7, false⟩) false).2 "session_1" "t.py" "script" none
          (fun _ => .ok ⟨8, false⟩) true =
        (.error "Session already has an active process",
          (start_debug clientIdle "session_1" "t.py" "script" none
            (fun _ => .ok ⟨7, false⟩) false).2) := by
  obtain ⟨h1, h2, h3⟩ := start_debug_startup_timeout_stale clientIdle "session_1"
    "t.py" "script" none (fun _ => .ok ⟨7, false⟩) ⟨7, false⟩
    { session_id := "session_1" } (by decide) rfl rfl
  exact ⟨by simpa using h1, h2, h3 "t.py" "script" none (fun _ => .ok ⟨8, false⟩) true⟩

/-! ## Claim C1: `send_command` on timeout returns the partial output -/

/-- Concatenation of the chunks popped from the output channel. -/
def concatChunks : List String → String
  | [] => ""
  | s :: rest => s ++ concatChunks rest

theorem readUntilPromptAux_no_prompt :
    ∀ (arr : List String) (acc : String),
      (∀ k, k ≤ arr.length →
          pdbPromptFound (acc ++ concatChunks (arr.take k)).data = false) →
      readUntilPromptAux arr acc = (acc ++ concatChunks arr, []) := by
  intro arr
  induction arr with
  | nil =>
    intro acc _
    simp [readUntilPromptAux, concatChunks, String.append_empty]
  | cons c rest ih =>
    intro acc hnp
    have h1 : pdbPromptFound (acc ++ c).data = false := by
      have := hnp 1 (by simp)
      simpa [concatChunks, String.append_empty] using this
    have hrec := ih (acc ++ c) (fun k hk => by
      have := hnp (k + 1) (by simpa using hk)
      simpa [concatChunks, String.append_assoc] using this)
    simp only [readUntilPromptAux, h1, Bool.false_eq_true, if_false, hrec,
      concatChunks, String.append_assoc]

/-- C1: when the session has a live subprocess and the prompt pattern never
matches the accumulated output within the timeout window, `send_command`
returns normally (it is a total function, so it cannot raise) with an `ok`
result carrying exactly the concatenation of the chunks accumulated from
the output channel and the session's current state value. -/
theorem send_command_timeout_returns_partial (client : PdbClient)
    (sid cmd : String) (arrivals : List String) (session : DebugSession)
    (hs : lookupA client.sessions sid = some session)
    (halive : processAlive session = true)
    (hnp : ∀ k, k ≤ arrivals.length →
        pdbPromptFound (concatChunks (arrivals.take k)).data = false) :
    (send_command client sid cmd arrivals).1 =
      .ok (concatChunks arrivals) session.state.value := by
  have hread : read_until_prompt arrivals = (concatChunks arrivals, []) := by
    have := readUntilPromptAux_no_prompt arrivals "" (fun k hk => by
      simpa [String.empty_append] using hnp k hk)
    simpa [read_until_prompt, String.empty_append] using this
  simp [send_command, hs, halive, hread]

/-- Witness for C1: two promptless chunks arrive and then the timeout
elapses; the result is their concatenation plus the state value. -/
theorem send_command_timeout_returns_partial_witness :
    (send_command clientLive "session_1" "continue" ["partial out", "put\n"]).1 =
      .ok "partial output\n" "paused" := by
  have := send_command_timeout_returns_partial clientLive "session_1" "continue"
    ["partial out", "put\n"]
    { session_id := "session_1", process := some ⟨41, false⟩, state := .paused }
    (by decide) (by decide) (by decide)
  simpa using this

/-! ## Claim C3: the reader flushes exactly at newline / prompt boundaries -/

/-- A buffer sits at a flush boundary when its last character is a newline
or its tail is exactly the prompt string. -/
def atBoundary (b : List Char) : Prop :=
  b.getLast? = some '\n' ∨ pdbPromptChars.isSuffixOf b = true

theorem readerProcess_concat (cs : List Char) :
    ∀ buffer, (readerProcess cs buffer).1.flatten ++ (readerProcess cs buffer).2 =
      buffer ++ cs := by
  induction cs with
  | nil => intro buffer; simp [readerProcess]
  | cons c rest ih =>
    intro buffer
    simp only [readerProcess, readerStep]
    by_cases hnl : c = '\n'
    · simp [hnl, ih]
    · by_cases hsf : pdbPromptChars.isSuffixOf (buffer ++ [c]) = true
      · simp [hnl, hsf, ih]
      · simp [hnl, hsf, ih (buffer ++ [c])]

theorem readerProcess_pushed_boundary (cs : List Char) :
    ∀ buffer o, o ∈ (readerProcess cs buffer).1 → atBoundary o := by
  induction cs with
  | nil => intro buffer o ho; simp [readerProcess] at ho
  | cons c rest ih =>
    intro buffer o ho
    simp only [readerProcess, readerStep] at ho
    by_cases hnl : c = '\n'
    · simp only [hnl, if_true, List.cons_append, List.nil_append, List.mem_cons] at ho
      rcases ho with rfl | ho
      · exact Or.inl (List.getLast?_concat _)
      · exact ih _ o ho
    · by_cases hsf : pdbPromptChars.isSuffixOf (buffer ++ [c]) = true
      · simp only [hnl, if_false, hsf, if_true, List.cons_append, List.nil_append,
          List.mem_cons] at ho
        rcases ho with rfl | ho
        · exact Or.inr hsf
        · exact ih _ o ho
      · simp only [hnl, if_false, hsf, List.nil_append] at ho
        exact ih _ o ho

theorem readerProcess_buffer_not_boundary (cs : List Char) :
    ∀ buffer, ¬ atBoundary buffer → ¬ atBoundary (readerProcess cs buffer).2 := by
  induction cs with
  | nil => intro buffer h; simpa [readerProcess] using h
  | cons c rest ih =>
    intro buffer h
    have hempty : ¬ atBoundary ([] : List Char) := by
      intro hc
      rcases hc with hc | hc
      · simp at hc
      · rw [show pdbPromptChars = "(Pdb) ".data from rfl] at hc
        simp [List.isSuffixOf] at hc
    simp only [readerProcess, readerStep]
    by_cases hnl : c = '\n'
    · simp only [hnl, if_true]
      exact ih [] hempty
    · by_cases hsf : pdbPromptChars.isSuffixOf (buffer ++ [c]) = true
      · simp only [hnl, if_false, hsf, if_true]
        exact ih [] hempty
      · have hsf' : pdbPromptChars.isSuffixOf (buffer ++ [c]) = false := by
          cases hv : pdbPromptChars.isSuffixOf (buffer ++ [c])
          · rfl
          · exact absurd hv hsf
        simp only [hnl, if_false, hsf', Bool.false_eq_true]
        apply ih
        intro hc
        rcases hc with hc | hc
        · rw [List.getLast?_concat] at hc
          exact hnl (by simpa using hc)
        · exact hsf hc

/-- C3: running the reader loop over any sequence of read characters,
(1) the concatenation of the pushed chunks followed by the residual buffer
is exactly the character sequence read (the output is partitioned, nothing
lost or duplicated), (2) every pushed chunk ends at a boundary — its last
character is a newline or its tail is exactly the prompt string
`"(Pdb) "` — and (3) the residual buffer never sits at a boundary: a push
happens exactly when a boundary is reached. -/
theorem reader_pushes_exactly_at_boundaries (cs : List Char) :
    ((readerProcess cs []).1.flatten ++ (readerProcess cs []).2 = cs)
    ∧ (∀ o ∈ (readerProcess cs []).1, atBoundary o)
    ∧ ¬ atBoundary (readerProcess cs []).2 := by
  refine ⟨by simpa using readerProcess_concat cs [], readerProcess_pushed_boundary cs [], ?_⟩
  apply readerProcess_buffer_not_boundary
  intro hc
  rcases hc with hc | hc
  · simp at hc
  · rw [show pdbPromptChars = "(Pdb) ".data from rfl] at hc
    simp [List.isSuffixOf] at hc

/-! ## Claim C4: the error exit path does NOT flush the partial buffer

`_reader_thread` flushes the remaining buffer *inside* the `try` block,
after the loop; when the loop ends because a read raises, control transfers
to the `except` clause — which sets the state to ERROR but never reaches
the flush.  The claim (and the spec sentence behind it) says the partial
buffer is pushed on the error path; the code drops it. -/

/-- Counterexample to C4: the reader reads `'a'` (no boundary, so `'a'`
stays in the buffer) and then the next read raises.  The state becomes
ERROR but nothing is pushed, even though the partial buffer at the point of
failure is the non-empty `['a']`. -/
theorem reader_error_flush_counterexample :
    (readerRun [ReadEvent.ch 'a', ReadEvent.readFail] [] [] .running).1 = []
    ∧ (readerRun [ReadEvent.ch 'a', ReadEvent.readFail] [] [] .running).2.2 =
        .error
    ∧ (readerProcess ['a'] []).2 = ['a'] := by
  refine ⟨?_, ?_, ?_⟩ <;> rfl

/-- C4 (amended): when the reader's loop ends because a read error occurs
the session state is set to ERROR but the partial accumulation buffer is
dropped, not pushed — the pushed chunks are exactly the boundary-flushed
chunks from before the error; the flush of a non-empty partial buffer
happens only on the normal exit path, when the subprocess exits. -/
theorem reader_error_sets_error_and_drops_buffer (chs : List Char) :
    ∀ (rest : List ReadEvent) (buffer lastOut : List Char) (st : DebuggerState),
      ((readerRun (chs.map ReadEvent.ch ++ ReadEvent.readFail :: rest)
          buffer lastOut st).2.2 = .error)
      ∧ ((readerRun (chs.map ReadEvent.ch ++ ReadEvent.readFail :: rest)
          buffer lastOut st).1 = (readerProcess chs buffer).1)
      ∧ ((readerRun (chs.map ReadEvent.ch) buffer lastOut st).1 =
          (readerProcess chs buffer).1 ++
            (if (readerProcess chs buffer).2.isEmpty then []
             else [(readerProcess chs buffer).2])) := by
  induction chs with
  | nil =>
    intro rest buffer lastOut st
    refine ⟨rfl, rfl, ?_⟩
    simp only [List.map_nil, readerRun, readerProcess]
    by_cases hb : buffer.isEmpty <;> simp [hb]
  | cons c chs ih =>
    intro rest buffer lastOut st
    simp only [List.map_cons, List.cons_append, readerRun, readerProcess, readerStep]
    by_cases hnl : c = '\n'
    · simp only [hnl, if_true]
      obtain ⟨h1, h2, h3⟩ := ih rest [] (lastOut ++ (buffer ++ ['\n']))
        (sentinelCheck (lastOut ++ (buffer ++ ['\n'])) st)
      exact ⟨h1, by simp [h2], by simp [h3]⟩
    · by_cases hsf : pdbPromptChars.isSuffixOf (buffer ++ [c]) = true
      · simp only [hnl, if_false, hsf, if_true]
        obtain ⟨h1, h2, h3⟩ := ih rest [] (lastOut ++ (buffer ++ [c]))
          (sentinelCheck (lastOut ++ (buffer ++ [c])) .paused)
        exact ⟨h1, by simp [h2], by simp [h3]⟩
      · simp only [hnl, if_false, hsf]
        obtain ⟨h1, h2, h3⟩ := ih rest (buffer ++ [c]) lastOut (sentinelCheck lastOut st)
        exact ⟨h1, by simp [h2], by simp [h3]⟩

/-! ## Claim C6: `create_session` ids are fresh and increasing -/

theorem create_session_eq (client : PdbClient) :
    create_session client =
      ("session_" ++ Nat.repr (client.session_counter + 1),
        { client with
            session_counter := client.session_counter + 1,
            sessions := updateA client.sessions
              ("session_" ++ Nat.repr (client.session_counter + 1))
              { session_id := "session_" ++ Nat.repr (client.session_counter + 1),
                python_executable := client.python_exe } }) := rfl

theorem createRun_succ_fst (client : PdbClient) (k : Nat) :
    (createRun client (k + 1)).1 =
      (create_session client).1 :: (createRun (create_session client).2 k).1 := rfl

theorem createRun_succ_snd (client : PdbClient) (k : Nat) :
    (createRun client (k + 1)).2 = (createRun (create_session client).2 k).2 := rfl

theorem createRun_ids (k : Nat) :
    ∀ client : PdbClient, (createRun client k).1 =
      (List.range k).map
        (fun i => "session_" ++ Nat.repr (client.session_counter + i + 1)) := by
  induction k with
  | zero => intro client; rfl
  | succ k ih =>
    intro client
    rw [createRun_succ_fst, ih, List.range_succ_eq_map, List.map_cons, List.map_map]
    have hc : (create_session client).2.session_counter = client.session_counter + 1 := rfl
    rw [hc]
    congr 1
    apply List.map_congr_left
    intro i _
    simp only [Function.comp_apply]
    congr 2
    omega

theorem createRun_lookup_untouched (k : Nat) :
    ∀ (client : PdbClient) (sid : String),
      (∀ i, i < k + 1 → sid ≠ "session_" ++ Nat.repr (client.session_counter + i + 1)) →
      lookupA (createRun client (k + 1)).2.sessions sid = lookupA client.sessions sid := by
  induction k with
  | zero =>
    intro client sid hne
    rw [createRun_succ_snd]
    show lookupA (create_session client).2.sessions sid = _
    exact lookupA_updateA_ne _ _ _ _ (fun h => hne 0 (by omega) h.symm)
  | succ k ih =>
    intro client sid hne
    rw [createRun_succ_snd]
    rw [ih ((create_session client).2) sid (fun i hi => by
      have hc : (create_session client).2.session_counter = client.session_counter + 1 := rfl
      rw [hc]
      have := hne (i + 1) (by omega)
      intro heq
      apply this
      rw [heq]
      congr 2
      omega)]
    exact lookupA_updateA_ne _ _ _ _ (fun h => hne 0 (by omega) h.symm)

theorem createRun_lookup_idle (k : Nat) :
    ∀ (client : PdbClient) (sid : String), sid ∈ (createRun client k).1 →
      ∃ s, lookupA (createRun client k).2.sessions sid = some s
        ∧ s.session_id = sid ∧ s.state = .idle ∧ s.process = none
        ∧ s.breakpoints = [] ∧ s.current_frame = none := by
  induction k with
  | zero => intro client sid h; simp [createRun] at h
  | succ k ih =>
    intro client sid hmem
    rw [createRun_succ_fst] at hmem
    rw [createRun_succ_snd]
    rcases List.mem_cons.mp hmem with rfl | hmem
    · have hlook : lookupA (create_session client).2.sessions (create_session client).1 =
          some { session_id := "session_" ++ Nat.repr (client.session_counter + 1),
                 python_executable := client.python_exe } := by
        show lookupA (updateA client.sessions _ _) _ = _
        exact lookupA_updateA_self ..
      cases k with
      | zero => exact ⟨_, hlook, rfl, rfl, rfl, rfl, rfl⟩
      | succ k =>
        rw [createRun_lookup_untouched k ((create_session client).2)
          (create_session client).1 (fun i hi heq => ?_)]
        · exact ⟨_, hlook, rfl, rfl, rfl, rfl, rfl⟩
        · have hc : (create_session client).2.session_counter = client.session_counter + 1 := rfl
          rw [hc] at heq
          have := sessionId_injective _ _ heq
          omega
    · exact ih _ sid hmem

/-- C6: for every sequence of `create_session` calls on one client, the
returned ids are (1) exactly `session_<counter+1>, session_<counter+2>, …`
— i.e. carry strictly increasing allocation counters (the witnesses `ns`),
(2) pairwise distinct, and (3) each id maps, in the resulting registry, to
a newly created idle session (state IDLE, no subprocess, empty breakpoint
table, no current frame, bearing that id). -/
theorem create_session_ids_fresh_increasing (client : PdbClient) (k : Nat) :
    ((createRun client k).1 = (List.range k).map
        (fun i => "session_" ++ Nat.repr (client.session_counter + i + 1)))
    ∧ (∃ ns : List Nat, ns.Pairwise (· < ·) ∧
        (createRun client k).1 = ns.map (fun n => "session_" ++ Nat.repr n))
    ∧ (createRun client k).1.Pairwise (· ≠ ·)
    ∧ ∀ sid ∈ (createRun client k).1,
        ∃ s, lookupA (createRun client k).2.sessions sid = some s
          ∧ s.session_id = sid ∧ s.state = .idle ∧ s.process = none
          ∧ s.breakpoints = [] ∧ s.current_frame = none := by
  refine ⟨createRun_ids k client, ?_, ?_, createRun_lookup_idle k client⟩
  · refine ⟨(List.range k).map (fun i => client.session_counter + i + 1), ?_, ?_⟩
    · rw [List.pairwise_map]
      exact (List.pairwise_lt_range k).imp (fun h => by omega)
    · rw [createRun_ids k client, List.map_map]
      rfl
  · rw [createRun_ids k client, List.pairwise_map]
    refine (List.pairwise_lt_range k).imp (fun {i j} h => ?_)
    intro heq
    have := sessionId_injective _ _ heq
    omega

/-! ## Claim C7: all three parsers fail closed -/

theorem parseFramesAux_all_none :
    ∀ (lines : List (List Char)) (i : Nat),
      (∀ line ∈ lines, stackMatchLine line = none) →
      parseFramesAux i lines = [] := by
  intro lines
  induction lines with
  | nil => intro i _; rfl
  | cons l rest ih =>
    intro i h
    have hl := h l (List.mem_cons_self l rest)
    simp only [parseFramesAux, hl]
    exact ih (i + 1) (fun line hm => h line (List.mem_cons_of_mem l hm))

/-- C7: all three response parsers fail closed.  (1) When the
current-location pattern finds no match, `_parse_location` returns `None`;
(2) when no line of the output matches the stack-frame pattern,
`parse_stack_frames` returns the empty list; (3) when the breakpoint
confirmation does not match `BREAKPOINT_SET_PATTERN`, `set_breakpoint`
returns the `"Failed to set breakpoint"` error (and stores nothing).  None
of the three ever produces a partial or guessed record from an unparseable
input. -/
theorem parsers_fail_closed :
    (∀ s : String, locSearch s.data = none → parse_location_frame s = none)
    ∧ (∀ s : String, (∀ line ∈ splitLines s.data, stackMatchLine line = none) →
        parse_stack_frames s = [])
    ∧ (∀ (client : PdbClient) (sid file : String) (line : Option Nat)
        (func condition : Option String) (temporary : Bool) (arr : List String)
        (out st : String) (c1 : PdbClient),
        (pyFalsyNat line && pyFalsyStr func) = false →
        send_command client sid (buildBreakCmd file line func condition temporary) arr
          = (.ok out st, c1) →
        bpSearch out.data = none →
        set_breakpoint client sid file line func condition temporary arr =
          (.error "Failed to set breakpoint", c1)) := by
  refine ⟨?_, ?_, ?_⟩
  · intro s h
    simp [parse_location_frame, h]
  · intro s h
    exact parseFramesAux_all_none (splitLines s.data) 0 h
  · intro client sid file line func condition temporary arr out st c1 hguard hsend hbp
    simp [set_breakpoint, hguard, hsend, hbp]

/-- Witness for C7: unparseable inputs for each of the three parsers at
concrete values. -/
theorem parsers_fail_closed_witness :
    parse_location_frame "no location output" = none
    ∧ parse_stack_frames "junk line\n(Pdb) " = []
    ∧ set_breakpoint clientLive "session_1" "f.py" (some 3) none none false
        ["ok\n", "(Pdb) "] =
      (.error "Failed to set breakpoint",
        (send_command clientLive "session_1" "break f.py:3" ["ok\n", "(Pdb) "]).2) := by
  refine ⟨parsers_fail_closed.1 _ (by decide), parsers_fail_closed.2.1 _ (by decide),
    parsers_fail_closed.2.2 clientLive "session_1" "f.py" (some 3) none none false
      ["ok\n", "(Pdb) "] "ok\n(Pdb) " "paused" _ (by decide) (by decide) (by decide)⟩

/-! ## Claim C8: stack-frame indices are line positions, not frame ranks -/

/-- Counterexample to C8: a two-line trace dump whose first line does not
match the stack-frame pattern.  The parser returns exactly one frame and
its index is `1` (the position of its line), not `0` as the claim requires
for the first returned frame. -/
theorem stack_frames_first_index_counterexample :
    (parse_stack_frames "junk\n  /a/f.py(3)g()").map (fun fr => fr.index) = [1] := by
  rfl

theorem parseFramesAux_mem (lines : List (List Char)) :
    ∀ (i : Nat) (fr : StackFrame), fr ∈ parseFramesAux i lines →
      ∃ j, fr.index = i + j ∧ j < lines.length ∧
        ∃ g1 d g3, stackMatchLine (lines.getD j []) = some (g1, d, g3)
          ∧ fr.file = String.mk (stripChars g1) ∧ fr.line = digitsToNat d
          ∧ fr.function = String.mk (stripChars g3) := by
  induction lines with
  | nil => intro i fr h; simp [parseFramesAux] at h
  | cons l rest ih =>
    intro i fr h
    cases hm : stackMatchLine l with
    | some g =>
      obtain ⟨g1, d, g3⟩ := g
      rw [parseFramesAux, hm] at h
      rcases List.mem_cons.mp h with rfl | h
      · exact ⟨0, by simp, by simp, g1, d, g3, by simpa using hm, rfl, rfl, rfl⟩
      · obtain ⟨j, hj1, hj2, hg⟩ := ih (i + 1) fr h
        refine ⟨j + 1, by omega, by simp only [List.length_cons]; omega, ?_⟩
        simpa using hg
    | none =>
      rw [parseFramesAux, hm] at h
      obtain ⟨j, hj1, hj2, hg⟩ := ih (i + 1) fr h
      refine ⟨j + 1, by omega, by simp only [List.length_cons]; omega, ?_⟩
      simpa using hg

theorem parseFramesAux_index_ge (lines : List (List Char)) :
    ∀ (i : Nat) (fr : StackFrame), fr ∈ parseFramesAux i lines → i ≤ fr.index := by
  intro i fr h
  obtain ⟨j, hj, _⟩ := parseFramesAux_mem lines i fr h
  omega

theorem parseFramesAux_indices_sorted (lines : List (List Char)) :
    ∀ i : Nat, ((parseFramesAux i lines).map (fun fr => fr.index)).Pairwise (· < ·) := by
  induction lines with
  | nil => intro i; simp [parseFramesAux]
  | cons l rest ih =>
    intro i
    cases hm : stackMatchLine l with
    | some g =>
      obtain ⟨g1, d, g3⟩ := g
      rw [parseFramesAux, hm]
      simp only [List.map_cons, List.pairwise_cons]
      refine ⟨?_, ih (i + 1)⟩
      intro x hx
      obtain ⟨fr, hfr, rfl⟩ := List.mem_map.mp hx
      have := parseFramesAux_index_ge rest (i + 1) fr hfr
      show i < fr.index
      omega
    | none =>
      rw [parseFramesAux, hm]
      exact ih (i + 1)

theorem parseFramesAux_complete (lines : List (List Char)) :
    ∀ (i : Nat) (j : Nat), j < lines.length →
      (stackMatchLine (lines.getD j [])).isSome = true →
      ∃ fr ∈ parseFramesAux i lines, fr.index = i + j := by
  induction lines with
  | nil => intro i j hj _; simp at hj
  | cons l rest ih =>
    intro i j hj hsome
    cases j with
    | zero =>
      simp only [List.getD_cons_zero] at hsome
      obtain ⟨g, hg⟩ := Option.isSome_iff_exists.mp hsome
      obtain ⟨g1, d, g3⟩ := g
      rw [parseFramesAux, hg]
      exact ⟨_, List.mem_cons_self _ _, by simp⟩
    | succ j =>
      have hrec := ih (i + 1) j (by simpa using hj) (by simpa using hsome)
      obtain ⟨fr, hfr, hidx⟩ := hrec
      cases hm : stackMatchLine l with
      | some g =>
        obtain ⟨g1, d, g3⟩ := g
        rw [parseFramesAux, hm]
        exact ⟨fr, List.mem_cons_of_mem _ hfr, by omega⟩
      | none =>
        rw [parseFramesAux, hm]
        exact ⟨fr, hfr, by omega⟩

/-- C8 (amended): `parse_stack_frames` returns one frame per line matched
by the stack-frame pattern, in the order those lines appear (the recorded
indices are strictly increasing), and each frame's `index` is the 0-based
position of its line in the newline-split output — so the first returned
frame's index is the position of the first matching line, which is `0` only
when the very first line matches. -/
theorem stack_frames_one_per_matching_line (output : String) :
    (∀ fr ∈ parse_stack_frames output,
        fr.index < (splitLines output.data).length ∧
        ∃ g1 d g3,
          stackMatchLine ((splitLines output.data).getD fr.index []) =
            some (g1, d, g3)
          ∧ fr.file = String.mk (stripChars g1) ∧ fr.line = digitsToNat d
          ∧ fr.function = String.mk (stripChars g3))
    ∧ ((parse_stack_frames output).map (fun fr => fr.index)).Pairwise (· < ·)
    ∧ ∀ j, j < (splitLines output.data).length →
        (stackMatchLine ((splitLines output.data).getD j [])).isSome = true →
        ∃ fr ∈ parse_stack_frames output, fr.index = j := by
  refine ⟨?_, parseFramesAux_indices_sorted _ 0, ?_⟩
  · intro fr hfr
    obtain ⟨j, hj1, hj2, hg⟩ := parseFramesAux_mem (splitLines output.data) 0 fr hfr
    have hfj : fr.index = j := by omega
    rw [hfj]
    exact ⟨hj2, hg⟩
  · intro j hj hsome
    have := parseFramesAux_complete (splitLines output.data) 0 j hj hsome
    simpa using this

/-! ## Claim C9: breakpoint set / list round-trip -/

/-- A successful `send_command` looks the session up, finds it alive and
writes back a session with the same breakpoint table. -/
theorem send_command_ok_preserves_breakpoints (client : PdbClient)
    (sid cmd : String) (arr : List String) (out st : String) (c1 : PdbClient)
    (h : send_command client sid cmd arr = (.ok out st, c1)) :
    ∃ s s', lookupA client.sessions sid = some s
      ∧ lookupA c1.sessions sid = some s'
      ∧ s'.breakpoints = s.breakpoints := by
  cases hl : lookupA client.sessions sid with
  | none => simp [send_command, hl] at h
  | some s =>
    by_cases ha : processAlive s = true
    · cases hp : parse_location_frame (read_until_prompt arr).1 with
      | some fr =>
        simp only [send_command, hl, ha, if_true, hp, Prod.mk.injEq] at h
        obtain ⟨-, hc1⟩ := h
        subst hc1
        exact ⟨s, _, rfl, lookupA_updateA_self .., rfl⟩
      | none =>
        simp only [send_command, hl, ha, if_true, hp, Prod.mk.injEq] at h
        obtain ⟨-, hc1⟩ := h
        subst hc1
        exact ⟨s, _, rfl, lookupA_updateA_self .., rfl⟩
    · simp [send_command, hl, ha] at h

/-- A successful `set_breakpoint` stores the confirmed breakpoint — id,
resolved file and resolved line exactly as returned — in the session's
breakpoint table. -/
theorem set_breakpoint_ok_stores (client : PdbClient) (sid file : String)
    (line : Option Nat) (func condition : Option String) (temporary : Bool)
    (arr : List String) (bpId : Nat) (f : String) (ln : Nat) (c2 : PdbClient)
    (h : set_breakpoint client sid file line func condition temporary arr =
      (.ok bpId f ln, c2)) :
    ∃ s2, lookupA c2.sessions sid = some s2
      ∧ lookupA s2.breakpoints bpId =
          some { id := bpId, file := f, line := ln, function := func,
                 condition := condition, temporary := temporary } := by
  by_cases hguard : (pyFalsyNat line && pyFalsyStr func) = true
  · simp [set_breakpoint, hguard] at h
  · rw [set_breakpoint, if_neg hguard] at h
    cases hsend : send_command client sid
        (buildBreakCmd file line func condition temporary) arr with
    | mk res c1 =>
      cases res with
      | error msg => rw [hsend] at h; simp at h
      | ok out st =>
        rw [hsend] at h
        cases hbp : bpSearch out.data with
        | none => simp [hbp] at h
        | some g =>
          obtain ⟨d, fc, lc⟩ := g
          obtain ⟨s, s', hs, hs', _⟩ :=
            send_command_ok_preserves_breakpoints client sid _ arr out st c1 hsend
          simp only [hbp, hs', Prod.mk.injEq, BpSetResult.ok.injEq] at h
          obtain ⟨⟨hid, hf, hl⟩, hc2⟩ := h
          subst hc2
          subst hid
          subst hf
          subst hl
          exact ⟨_, lookupA_updateA_self .., lookupA_updateA_self ..⟩

/-- C9: after a `set_breakpoint` whose confirmation parsed as
`Breakpoint <id> at <file>:<line>` (so the call returned that id and
resolved location), a subsequent `list_breakpoints` on the same session
that itself completes (default pagination: no limit, offset 0) returns a
record whose id, file and line are exactly the confirmed ones — the
resolved location from the debuggee, not necessarily the caller's requested
line. -/
theorem breakpoint_set_list_roundtrip (client : PdbClient) (sid file : String)
    (line : Option Nat) (func condition : Option String) (temporary : Bool)
    (arr1 arr2 : List String) (bpId : Nat) (f : String) (ln : Nat)
    (c2 : PdbClient) (records : List BpRecord) (off : Nat) (lim : Option Nat)
    (tot ret : Nat) (c3 : PdbClient)
    (h1 : set_breakpoint client sid file line func condition temporary arr1 =
      (.ok bpId f ln, c2))
    (h2 : list_breakpoints c2 sid none 0 arr2 =
      (.ok records off lim tot ret, c3)) :
    ∃ r ∈ records, r.id = bpId ∧ r.file = f ∧ r.line = ln := by
  obtain ⟨s2, hs2, hbp⟩ := set_breakpoint_ok_stores client sid file line func
    condition temporary arr1 bpId f ln c2 h1
  rw [list_breakpoints] at h2
  cases hsend : send_command c2 sid "break" arr2 with
  | mk res c1' =>
    cases res with
    | error msg => rw [hsend] at h2; simp at h2
    | ok out st =>
      rw [hsend] at h2
      obtain ⟨s, s', hs, hs', hpres⟩ :=
        send_command_ok_preserves_breakpoints c2 sid "break" arr2 out st c1' hsend
      rw [hs] at hs2
      cases hs2
      simp only [hs', Prod.mk.injEq, BpListResult.ok.injEq] at h2
      obtain ⟨⟨hrec, -, -, -, -⟩, -⟩ := h2
      have hmem : (bpId, Breakpoint.mk bpId f ln func condition temporary true 0) ∈
          s'.breakpoints := by
        rw [hpres]
        exact lookupA_mem _ _ _ hbp
      have hmem2 : BpRecord.mk bpId f ln func condition true 0 ∈
          s'.breakpoints.map (fun kv =>
            BpRecord.mk kv.2.id kv.2.file kv.2.line kv.2.function kv.2.condition
              kv.2.enabled kv.2.hit_count) :=
        List.mem_map.mpr ⟨_, hmem, rfl⟩
      have hmem3 := (List.perm_insertionSort (fun a b => a.id ≤ b.id)
          (s'.breakpoints.map (fun kv =>
            BpRecord.mk kv.2.id kv.2.file kv.2.line kv.2.function kv.2.condition
              kv.2.enabled kv.2.hit_count))).mem_iff.mpr hmem2
      refine ⟨BpRecord.mk bpId f ln func condition true 0, ?_, rfl, rfl, rfl⟩
      rw [← hrec]
      simpa using hmem3

/-- Concrete arrivals for the C9 witness: the debuggee confirms the
breakpoint (adjusted to line 4) and then prompts. -/
def bpArrivals : List String := ["Breakpoint 1 at /tmp/t.py:4\n", "(Pdb) "]

/-- Witness for C9 at a concrete end-to-end run: set a breakpoint
requesting line 3, the debuggee resolves it to line 4, and the subsequent
listing returns the resolved record. -/
theorem breakpoint_set_list_roundtrip_witness :
    ∃ r ∈ [BpRecord.mk 1 "/tmp/t.py" 4 none none true 0],
      r.id = 1 ∧ r.file = "/tmp/t.py" ∧ r.line = 4 :=
  breakpoint_set_list_roundtrip clientLive "session_1" "/tmp/t.py" (some 3)
    none none false bpArrivals ["(Pdb) "] 1 "/tmp/t.py" 4
    (set_breakpoint clientLive "session_1" "/tmp/t.py" (some 3) none none false
      bpArrivals).2
    [BpRecord.mk 1 "/tmp/t.py" 4 none none true 0] 0 none 1 1
    (list_breakpoints (set_breakpoint clientLive "session_1" "/tmp/t.py" (some 3)
      none none false bpArrivals).2 "session_1" none 0 ["(Pdb) "]).2
    (by decide) (by decide)

end JonsMcpPdb
